import Mathlib

/-!
# build_tgz.go: a shallow embedding

`build_tgz.go` writes the files named on its command line into one gzip-compressed
tar archive.  The program is a sequence of calls into the operating system and the
Go standard library (`os`, `archive/tar`, `compress/gzip`, `io`, `log`, `fmt`).

The embedding makes those calls explicit:

* `Env` holds the answer of every external call (an error or a result);
* `World` is the state the program acts on: the ordered record of the external
  calls it made (`trace`) and the entries the tar stream has received (`archive`);
* `addToArchive`, `createArchive` and `main` are the three Go functions, written
  in state-passing style; a Go `defer` is the call placed on every return path of
  its function, and `os.Exit` / `log.Fatalln` end the run where they stand.
-/

namespace BuildTgz

/-! ## Data model -/

/-- A Go `error` value, identified by its message. -/
abbrev Err := String

/-- One byte of file content. -/
abbrev Byte := Nat

/-- The part of `os.FileInfo` that the program hands to the tar library. -/
structure FileInfo where
  name : String
  size : Int
  mode : Nat
  modTime : Int
  isDir : Bool
  deriving DecidableEq, Repr

/-- The fields of `tar.Header` that describe an entry. -/
structure Header where
  typeflag : Nat
  name : String
  linkname : String
  size : Int
  mode : Int
  modTime : Int
  deriving DecidableEq, Repr

/-- An `*os.File` opened for reading: what `Stat` answers, the bytes `Read`
delivers, the error `Read` ends with (`none` is `io.EOF`), and what `Close` answers. -/
structure File where
  stat : Except Err FileInfo
  content : List Byte
  readErr : Option Err
  closeErr : Option Err

/-- One entry of the tar stream: the header accepted by `WriteHeader` and the
content bytes accepted after it. -/
structure Entry where
  header : Header
  content : List Byte
  deriving DecidableEq, Repr

/-- One external call made by the program, with its outcome where it has one
(`none` is a nil error).  `logFatalln` is the line `log.Fatalln` writes to standard
error, without the time stamp the logger puts before it; the call then ends the
process with status 1. -/
inductive Event where
  | panic (text : String)
  | stderr (text : String)
  | stdout (text : String)
  | logFatalln (text : String)
  | osCreate (path : String) (err : Option Err)
  | outClose (err : Option Err)
  | gzipNewWriter
  | tarNewWriter
  | twClose (err : Option Err)
  | gwClose (err : Option Err)
  | osOpen (path : String) (err : Option Err)
  | fileStat (path : String) (err : Option Err)
  | fileInfoHeader (path : String) (err : Option Err)
  | twWriteHeader (header : Header) (err : Option Err)
  | ioCopy (path : String) (written : List Byte) (err : Option Err)
  | fileClose (path : String) (err : Option Err)
  deriving DecidableEq, Repr

/-- The state of a run: the external calls made so far, oldest first, and the
entries the tar writer has received so far. -/
structure World where
  trace : List Event
  archive : List Entry
  deriving DecidableEq, Repr

/-- The state before the program has done anything. -/
def World.start : World := ⟨[], []⟩

/-- Record one external call. -/
def World.log (w : World) (e : Event) : World :=
  { w with trace := w.trace ++ [e] }

/-- The tar writer accepted a header: a new entry begins. -/
def World.beginEntry (w : World) (h : Header) : World :=
  { w with archive := w.archive ++ [⟨h, []⟩] }

/-- The tar writer accepted content bytes: they extend the entry begun last. -/
def World.writeContent (w : World) (bs : List Byte) : World :=
  match w.archive.getLast? with
  | none => w
  | some e => { w with archive := w.archive.dropLast ++ [{ e with content := e.content ++ bs }] }

/-- The answers of the operating system and of the Go library.  The file system
answers by path; the writers answer by the state of the run, so a write may fail
at any point of it (`twWrite` answers `some (n, err)` when the writer accepts only
the first `n` bytes and then fails with `err`). -/
structure Env where
  osCreate : String → Option Err
  outClose : World → Option Err
  osOpen : String → Except Err File
  fileInfoHeader : FileInfo → String → Except Err Header
  twWriteHeader : World → Header → Option Err
  twWrite : World → List Byte → Option (Nat × Err)
  twClose : World → Option Err
  gwClose : World → Option Err

/-- How a run ends: the exit status of the process and the final state. -/
structure Run where
  exitCode : Nat
  world : World
  deriving DecidableEq, Repr

/-! ## The program -/

/-- The constant `USAGE` of the source. -/
def USAGE : String :=
  "\nUsage:\ngo run build_tgz.go tgz_path file1_path file2_path ...\n\nWhere,\ntgz_path    - relative or absolute path of output archive including file name and extension\nfileNN_path - relative path of input file. DO NOT specify folder. Sub-folders shall be exactly as per\n              relative directory location of the file.\n"

/-- The call `io.Copy(tw, file)`: the bytes of the file go to the tar writer; the
call fails when the writer fails, or when reading the file ends with an error. -/
def ioCopy (env : Env) (file : File) (filename : String) (w : World) : Option Err × World :=
  match env.twWrite w file.content with
  | some (n, err) =>
    (some err, (w.writeContent (file.content.take n)).log
      (.ioCopy filename (file.content.take n) (some err)))
  | none =>
    ((file.readErr), (w.writeContent file.content).log
      (.ioCopy filename file.content file.readErr))

/-- The body of `addToArchive` after `os.Open` succeeded and `file.Close` was
deferred (source lines 83 to 113). -/
def addToArchiveOpened (env : Env) (file : File) (filename : String) (w : World) :
    Option Err × World :=
  match file.stat with
  | .error err => (some err, w.log (.fileStat filename (some err)))
  | .ok info =>
    let w := w.log (.fileStat filename none)
    match env.fileInfoHeader info info.name with
    | .error err => (some err, w.log (.fileInfoHeader filename (some err)))
    | .ok header =>
      let w := w.log (.fileInfoHeader filename none)
      let header := { header with name := filename }
      match env.twWriteHeader w header with
      | some err => (some err, w.log (.twWriteHeader header (some err)))
      | none =>
        let w := (w.log (.twWriteHeader header none)).beginEntry header
        ioCopy env file filename w

/-- The function `addToArchive(tw, filename)`. -/
def addToArchive (env : Env) (filename : String) (w : World) : Option Err × World :=
  match env.osOpen filename with
  | .error err => (some err, w.log (.osOpen filename (some err)))
  | .ok file =>
    let w := w.log (.osOpen filename none)
    let r := addToArchiveOpened env file filename w
    (r.1, r.2.log (.fileClose filename file.closeErr))

/-- The loop `for _, file := range files` of `createArchive`. -/
def createArchiveLoop (env : Env) : List String → World → Option Err × World
  | [], w => (none, w)
  | file :: rest, w =>
    match addToArchive env file w with
    | (some err, w1) => (some err, w1)
    | (none, w1) => createArchiveLoop env rest w1

/-- The function `createArchive(files, buf)`; the two deferred `Close` calls run
last, `tw.Close` before `gw.Close`, and their results are dropped. -/
def createArchive (env : Env) (files : List String) (w : World) : Option Err × World :=
  let w := w.log .gzipNewWriter
  let w := w.log .tarNewWriter
  let r := createArchiveLoop env files w
  let w := r.2.log (.twClose (env.twClose r.2))
  let w := w.log (.gwClose (env.gwClose w))
  (r.1, w)

/-- The line printed by `fmt.Println("Archive created successfully")`. -/
def successLine : String := "Archive created successfully\n"

/-- The function `main`, on the argument vector `os.Args`.  The slice expression
`os.Args[1:]` panics on an empty vector (exit status 2); `os.Exit(1)` and
`log.Fatalln` end the process at once, so the deferred `out.Close` runs only when
`main` returns. -/
def main (env : Env) (osArgs : List String) : Run :=
  match osArgs with
  | [] => ⟨2, World.start.log (.panic "slice bounds out of range")⟩
  | _ :: argsWithoutProg =>
    if argsWithoutProg.length < 2 then
      ⟨1, World.start.log (.stderr USAGE)⟩
    else
      let tgz_path := argsWithoutProg.headD ""
      let files := argsWithoutProg.drop 1
      match env.osCreate tgz_path with
      | some err =>
        ⟨1, (World.start.log (.osCreate tgz_path (some err))).log
          (.logFatalln ("Error writing archive: " ++ err ++ "\n"))⟩
      | none =>
        let w := World.start.log (.osCreate tgz_path none)
        let r := createArchive env files w
        match r.1 with
        | some err => ⟨1, r.2.log (.logFatalln ("Error creating archive: " ++ err ++ "\n"))⟩
        | none =>
          let w := r.2.log (.stdout successLine)
          ⟨0, w.log (.outClose (env.outClose w))⟩

/-! ## Observations on a run -/

/-- The archive as a reader sees it: the name and the content of each entry, in order. -/
def World.listing (w : World) : List (String × List Byte) :=
  w.archive.map (fun e => (e.header.name, e.content))

/-- The paths handed to `os.Open`, in order, whether the call succeeded or not. -/
def openedPaths : List Event → List String
  | [] => []
  | .osOpen path _ :: rest => path :: openedPaths rest
  | _ :: rest => openedPaths rest

/-- The headers handed to `tw.WriteHeader`, in order, whether the call succeeded or not. -/
def headersWritten : List Event → List Header
  | [] => []
  | .twWriteHeader header _ :: rest => header :: headersWritten rest
  | _ :: rest => headersWritten rest

/-- The bytes the file at a path delivers when read (nothing when it cannot be opened). -/
def fileBytes (env : Env) (path : String) : List Byte :=
  match env.osOpen path with
  | .ok file => file.content
  | .error _ => []

/-- A path is readable: the file opens, its metadata is read and turned into a
header, and reading its bytes ends with end of file. -/
def Readable (env : Env) (path : String) : Prop :=
  ∃ file info header, env.osOpen path = .ok file ∧ file.stat = .ok info ∧
    env.fileInfoHeader info info.name = .ok header ∧ file.readErr = none

/-- The tar writer accepts every header and every content write. -/
def WritersNeverFail (env : Env) : Prop :=
  (∀ w header, env.twWriteHeader w header = none) ∧ (∀ w bs, env.twWrite w bs = none)

/-- The calls `addToArchive` makes for one file. -/
def Event.isEntryStep : Event → Bool
  | .osOpen _ _ | .fileStat _ _ | .fileInfoHeader _ _ | .twWriteHeader _ _
  | .ioCopy _ _ _ | .fileClose _ _ => true
  | _ => false

/-- A step of the pipeline that answered an error, `Close` calls apart: creating
the output file, or opening a file, reading its metadata, building its header,
writing its header or copying its content. -/
def Event.failedStep : Event → Bool
  | .osCreate _ (some _) | .osOpen _ (some _) | .fileStat _ (some _)
  | .fileInfoHeader _ (some _) | .twWriteHeader _ (some _) | .ioCopy _ _ (some _) => true
  | _ => false

/-- A `Close` of the tar writer or of the gzip writer that answered an error. -/
def Event.failedWriterClose : Event → Bool
  | .twClose (some _) | .gwClose (some _) => true
  | _ => false

/-- The state `w1` continues `w`: its record is the record of `w` followed by
calls that all satisfy `P`. -/
def Grows (P : Event → Prop) (w w1 : World) : Prop :=
  ∃ evs, w1.trace = w.trace ++ evs ∧ ∀ e ∈ evs, P e

/-- The record of a state holds a failed step. -/
def HasFailedStep (w : World) : Prop := ∃ e ∈ w.trace, e.failedStep = true

/-- The state in which `main` calls `createArchive`: the output file was created. -/
def outputCreated (tgz_path : String) : World :=
  World.start.log (.osCreate tgz_path none)

/-! ## Sample environment -/

/-- A regular file with the given base name and bytes. -/
def regularFile (name : String) (bytes : List Byte) : File :=
  { stat := .ok ⟨name, bytes.length, 420, 1700000000, false⟩
    content := bytes
    readErr := none
    closeErr := none }

/-- A header construction in the manner of `tar.FileInfoHeader` for regular files
and directories. -/
def sampleFileInfoHeader (info : FileInfo) (_link : String) : Except Err Header :=
  if info.isDir then .ok ⟨53, info.name ++ "/", "", 0, info.mode, info.modTime⟩
  else .ok ⟨48, info.name, "", info.size, info.mode, info.modTime⟩

/-- A file system with three regular files: `a.txt`, `dir/b.txt` and `/srv/../etc/motd`. -/
def sampleOpen (path : String) : Except Err File :=
  if path = "a.txt" then .ok (regularFile "a.txt" [104, 105])
  else if path = "dir/b.txt" then .ok (regularFile "b.txt" [1, 2, 3])
  else if path = "/srv/../etc/motd" then .ok (regularFile "motd" [10])
  else .error ("open " ++ path ++ ": no such file or directory")

/-- An environment in which the sample files exist and no call fails otherwise. -/
def sampleEnv : Env :=
  { osCreate := fun _ => none
    outClose := fun _ => none
    osOpen := sampleOpen
    fileInfoHeader := sampleFileInfoHeader
    twWriteHeader := fun _ _ => none
    twWrite := fun _ _ => none
    twClose := fun _ => none
    gwClose := fun _ => none }

/-- An environment in which the output file cannot be created. -/
def noOutputEnv : Env :=
  { sampleEnv with osCreate := fun path => some ("open " ++ path ++ ": no such file or directory") }

/-- An environment in which closing the gzip writer fails. -/
def closeFailEnv : Env :=
  { sampleEnv with gwClose := fun _ => some "write out.tgz: no space left on device" }

/-- An environment in which the tar writer refuses every header. -/
def headerFailEnv : Env :=
  { sampleEnv with twWriteHeader := fun _ _ => some "write /dev/full: no space left on device" }

/-! ## Basic facts about the state -/

@[simp] theorem World.log_trace (w : World) (e : Event) : (w.log e).trace = w.trace ++ [e] := rfl

@[simp] theorem World.log_archive (w : World) (e : Event) : (w.log e).archive = w.archive := rfl

@[simp] theorem World.beginEntry_trace (w : World) (h : Header) :
    (w.beginEntry h).trace = w.trace := rfl

@[simp] theorem World.beginEntry_archive (w : World) (h : Header) :
    (w.beginEntry h).archive = w.archive ++ [⟨h, []⟩] := rfl

@[simp] theorem World.writeContent_trace (w : World) (bs : List Byte) :
    (w.writeContent bs).trace = w.trace := by
  unfold World.writeContent
  cases w.archive.getLast? <;> rfl

theorem World.writeContent_beginEntry (w : World) (h : Header) (bs : List Byte) :
    (w.beginEntry h).writeContent bs = ⟨w.trace, w.archive ++ [⟨h, bs⟩]⟩ := by
  unfold World.writeContent
  simp [World.beginEntry]

@[simp] theorem World.listing_log (w : World) (e : Event) : (w.log e).listing = w.listing := rfl

theorem openedPaths_append (a b : List Event) :
    openedPaths (a ++ b) = openedPaths a ++ openedPaths b := by
  induction a with
  | nil => rfl
  | cons e rest ih => cases e <;> simp [openedPaths, ih]

theorem headersWritten_append (a b : List Event) :
    headersWritten (a ++ b) = headersWritten a ++ headersWritten b := by
  induction a with
  | nil => rfl
  | cons e rest ih => cases e <;> simp [headersWritten, ih]

theorem Grows.refl (P : Event → Prop) (w : World) : Grows P w w :=
  ⟨[], by simp, by simp⟩

theorem Grows.logged {P : Event → Prop} {w w1 : World} (h : Grows P w w1) (e : Event) (he : P e) :
    Grows P w (w1.log e) := by
  obtain ⟨evs, ht, hp⟩ := h
  refine ⟨evs ++ [e], by simp [ht], ?_⟩
  intro x hx
  rcases List.mem_append.mp hx with hx | hx
  · exact hp x hx
  · rw [List.mem_singleton.mp hx]
    exact he

theorem Grows.beginEntry {P : Event → Prop} {w w1 : World} (h : Grows P w w1) (hd : Header) :
    Grows P w (w1.beginEntry hd) := h

theorem Grows.writeContent {P : Event → Prop} {w w1 : World} (h : Grows P w w1)
    (bs : List Byte) : Grows P w (w1.writeContent bs) := by
  obtain ⟨evs, ht, hp⟩ := h
  exact ⟨evs, by simp [ht], hp⟩

theorem Grows.trans {P : Event → Prop} {w w1 w2 : World} (h1 : Grows P w w1)
    (h2 : Grows P w1 w2) : Grows P w w2 := by
  obtain ⟨evs1, ht1, hp1⟩ := h1
  obtain ⟨evs2, ht2, hp2⟩ := h2
  refine ⟨evs1 ++ evs2, by simp [ht2, ht1], ?_⟩
  intro x hx
  rcases List.mem_append.mp hx with hx | hx
  · exact hp1 x hx
  · exact hp2 x hx

theorem Grows.mono {P Q : Event → Prop} {w w1 : World} (h : Grows P w w1)
    (hpq : ∀ e, P e → Q e) : Grows Q w w1 := by
  obtain ⟨evs, ht, hp⟩ := h
  exact ⟨evs, ht, fun e he => hpq e (hp e he)⟩

theorem Grows.mem {P : Event → Prop} {w w1 : World} (h : Grows P w w1) {e : Event}
    (he : e ∈ w1.trace) : e ∈ w.trace ∨ P e := by
  obtain ⟨evs, ht, hp⟩ := h
  rw [ht] at he
  rcases List.mem_append.mp he with he | he
  · exact Or.inl he
  · exact Or.inr (hp e he)

/-! ## One file -/

/-- When the tar writer accepts the content, `io.Copy` hands over every byte of
the file and answers what reading ended with. -/
theorem ioCopy_of_write_ok (env : Env) (file : File) (filename : String) (w : World)
    (hw : env.twWrite w file.content = none) :
    ioCopy env file filename w =
      (file.readErr, (w.writeContent file.content).log
        (.ioCopy filename file.content file.readErr)) := by
  unfold ioCopy
  rw [hw]

/-- Adding a readable file with writers that accept everything: the call succeeds
and the state grows by the six calls of one entry and by the entry itself. -/
theorem addToArchive_of_readable (env : Env) (filename : String) (w : World)
    (file : File) (info : FileInfo) (header : Header)
    (ho : env.osOpen filename = .ok file) (hs : file.stat = .ok info)
    (hh : env.fileInfoHeader info info.name = .ok header) (hr : file.readErr = none)
    (hw : WritersNeverFail env) :
    addToArchive env filename w =
      (none,
        { trace := w.trace ++
            [.osOpen filename none, .fileStat filename none, .fileInfoHeader filename none,
             .twWriteHeader { header with name := filename } none,
             .ioCopy filename file.content none, .fileClose filename file.closeErr]
          archive := w.archive ++ [⟨{ header with name := filename }, file.content⟩] }) := by
  obtain ⟨hwh, hwc⟩ := hw
  unfold addToArchive
  simp only [ho]
  unfold addToArchiveOpened
  simp only [hs, hh, hwh]
  rw [ioCopy_of_write_ok env file filename _ (hwc _ _), World.writeContent_beginEntry]
  simp [hr, World.log]

/-- Every call of `addToArchive` hands its path to `os.Open` once, and no other path. -/
theorem addToArchive_openedPaths (env : Env) (filename : String) (w : World) :
    openedPaths (addToArchive env filename w).2.trace = openedPaths w.trace ++ [filename] := by
  unfold addToArchive addToArchiveOpened ioCopy
  split
  · simp [openedPaths_append, openedPaths]
  · split
    · simp [openedPaths_append, openedPaths]
    · split
      · simp [openedPaths_append, openedPaths]
      · dsimp only
        split
        · simp [openedPaths_append, openedPaths]
        · split <;> simp [openedPaths_append, openedPaths]

/-- The calls of `io.Copy` are entry steps, and none of them failed when it
answers no error. -/
theorem ioCopy_grows (env : Env) (file : File) (filename : String) (w : World) :
    Grows (fun e => e.isEntryStep = true ∧
        ((ioCopy env file filename w).1 = none → e.failedStep = false))
      w (ioCopy env file filename w).2 := by
  unfold ioCopy
  split
  · exact ((Grows.refl _ w).writeContent _).logged _ (by simp [Event.isEntryStep])
  · refine ((Grows.refl _ w).writeContent _).logged _ ⟨rfl, ?_⟩
    intro h
    simp only at h
    simp [h, Event.failedStep]

/-- The calls of `addToArchive` after the file is open are entry steps, and none
of them failed when it answers no error. -/
theorem addToArchiveOpened_grows (env : Env) (file : File) (filename : String) (w : World) :
    Grows (fun e => e.isEntryStep = true ∧
        ((addToArchiveOpened env file filename w).1 = none → e.failedStep = false))
      w (addToArchiveOpened env file filename w).2 := by
  unfold addToArchiveOpened
  split
  · exact (Grows.refl _ w).logged _ (by simp [Event.isEntryStep])
  · split
    · exact ((Grows.refl _ w).logged _ (by simp [Event.isEntryStep, Event.failedStep])).logged _
        (by simp [Event.isEntryStep])
    · dsimp only
      split
      · exact ((((Grows.refl _ w).logged _ (by simp [Event.isEntryStep, Event.failedStep])).logged _
          (by simp [Event.isEntryStep, Event.failedStep]))).logged _ (by simp [Event.isEntryStep])
      · refine Grows.trans ?_ (ioCopy_grows env file filename _)
        exact (((((Grows.refl _ w).logged _ (by simp [Event.isEntryStep, Event.failedStep])).logged _
          (by simp [Event.isEntryStep, Event.failedStep]))).logged _
          (by simp [Event.isEntryStep, Event.failedStep])).beginEntry _

/-- The calls of `addToArchive` are entry steps, and none of them failed when it
answers no error. -/
theorem addToArchive_grows (env : Env) (filename : String) (w : World) :
    Grows (fun e => e.isEntryStep = true ∧
        ((addToArchive env filename w).1 = none → e.failedStep = false))
      w (addToArchive env filename w).2 := by
  unfold addToArchive
  split
  · exact (Grows.refl _ w).logged _ (by simp [Event.isEntryStep])
  · dsimp only
    refine Grows.logged (Grows.trans ?_ (addToArchiveOpened_grows env _ filename _)) _
      (by simp [Event.isEntryStep, Event.failedStep])
    exact (Grows.refl _ w).logged _ (by simp [Event.isEntryStep, Event.failedStep])

theorem HasFailedStep.of_log (w : World) (e : Event) (h : e.failedStep = true) :
    HasFailedStep (w.log e) :=
  ⟨e, by simp, h⟩

theorem HasFailedStep.kept {w : World} (h : HasFailedStep w) (e : Event) :
    HasFailedStep (w.log e) := by
  obtain ⟨x, hx, hf⟩ := h
  exact ⟨x, by simp [hx], hf⟩

/-- When `io.Copy` answers an error, the copy is a failed step of the record. -/
theorem ioCopy_failedStep (env : Env) (file : File) (filename : String) (w : World) (err : Err)
    (h : (ioCopy env file filename w).1 = some err) :
    HasFailedStep (ioCopy env file filename w).2 := by
  revert h
  unfold ioCopy
  split
  · intro _
    exact HasFailedStep.of_log _ _ rfl
  · intro h
    simp only at h
    exact HasFailedStep.of_log _ _ (by simp [h, Event.failedStep])

/-- When the body of `addToArchive` answers an error, one of its calls failed. -/
theorem addToArchiveOpened_failedStep (env : Env) (file : File) (filename : String) (w : World)
    (err : Err) (h : (addToArchiveOpened env file filename w).1 = some err) :
    HasFailedStep (addToArchiveOpened env file filename w).2 := by
  revert h
  unfold addToArchiveOpened
  split
  · intro _
    exact HasFailedStep.of_log _ _ rfl
  · split
    · intro _
      exact HasFailedStep.of_log _ _ rfl
    · dsimp only
      split
      · intro _
        exact HasFailedStep.of_log _ _ rfl
      · intro h
        exact ioCopy_failedStep env file filename _ err h

/-- When `addToArchive` answers an error, one of its calls failed. -/
theorem addToArchive_failedStep (env : Env) (filename : String) (w : World) (err : Err)
    (h : (addToArchive env filename w).1 = some err) :
    HasFailedStep (addToArchive env filename w).2 := by
  revert h
  unfold addToArchive
  split
  · intro _
    exact HasFailedStep.of_log _ _ rfl
  · intro h
    exact (addToArchiveOpened_failedStep env _ filename _ err h).kept _

/-! ## The loop over the files -/

/-- The loop stops at the first file whose `addToArchive` answers an error. -/
theorem createArchiveLoop_cons_error (env : Env) (file : String) (rest : List String)
    (w w1 : World) (err : Err) (h : addToArchive env file w = (some err, w1)) :
    createArchiveLoop env (file :: rest) w = (some err, w1) := by
  simp [createArchiveLoop, h]

/-- After a file that was added without error the loop goes on with the rest. -/
theorem createArchiveLoop_cons_ok (env : Env) (file : String) (rest : List String)
    (w w1 : World) (h : addToArchive env file w = (none, w1)) :
    createArchiveLoop env (file :: rest) w = createArchiveLoop env rest w1 := by
  simp [createArchiveLoop, h]

/-- A run of the loop that went through `pre` without error continues with what follows. -/
theorem createArchiveLoop_append (env : Env) (pre rest : List String) (w w1 : World)
    (h : createArchiveLoop env pre w = (none, w1)) :
    createArchiveLoop env (pre ++ rest) w = createArchiveLoop env rest w1 := by
  induction pre generalizing w with
  | nil =>
    simp only [createArchiveLoop, Prod.mk.injEq, true_and] at h
    simp [h]
  | cons file more ih =>
    rcases hadd : addToArchive env file w with ⟨r, w2⟩
    cases r with
    | some err => simp [createArchiveLoop, hadd] at h
    | none =>
      rw [createArchiveLoop_cons_ok env file more w w2 hadd] at h
      rw [List.cons_append, createArchiveLoop_cons_ok env file (more ++ rest) w w2 hadd]
      exact ih w2 h

/-- A run of the loop that went through all of `files` without error opened
exactly those paths, in order. -/
theorem createArchiveLoop_openedPaths_ok (env : Env) (files : List String) (w w1 : World)
    (h : createArchiveLoop env files w = (none, w1)) :
    openedPaths w1.trace = openedPaths w.trace ++ files := by
  induction files generalizing w with
  | nil =>
    simp only [createArchiveLoop, Prod.mk.injEq, true_and] at h
    simp [h]
  | cons file more ih =>
    rcases hadd : addToArchive env file w with ⟨r, w2⟩
    cases r with
    | some err => simp [createArchiveLoop, hadd] at h
    | none =>
      rw [createArchiveLoop_cons_ok env file more w w2 hadd] at h
      have h2 := addToArchive_openedPaths env file w
      rw [hadd] at h2
      rw [ih w2 h, h2]
      simp

/-- With readable files and writers that accept everything the loop adds every
file: one entry per path, named by the path and holding the bytes of the file. -/
theorem createArchiveLoop_of_readable (env : Env) (files : List String) (w : World)
    (hr : ∀ p ∈ files, Readable env p) (hw : WritersNeverFail env) :
    ∃ w1, createArchiveLoop env files w = (none, w1) ∧
      w1.listing = w.listing ++ files.map (fun p => (p, fileBytes env p)) ∧
      (headersWritten w1.trace).map Header.name =
        (headersWritten w.trace).map Header.name ++ files := by
  induction files generalizing w with
  | nil => exact ⟨w, rfl, by simp, by simp⟩
  | cons file more ih =>
    obtain ⟨f, info, header, ho, hs, hh, hre⟩ := hr file (List.mem_cons_self _ _)
    have hadd := addToArchive_of_readable env file w f info header ho hs hh hre hw
    obtain ⟨w1, hloop, hl, hhw⟩ := ih _ (fun p hp => hr p (List.mem_cons_of_mem _ hp))
    refine ⟨w1, ?_, ?_, ?_⟩
    · rw [createArchiveLoop_cons_ok env file more w _ hadd]
      exact hloop
    · rw [hl]
      simp [World.listing, fileBytes, ho]
    · rw [hhw]
      simp [headersWritten_append, headersWritten]

/-- The calls of the loop are entry steps, and none of them failed when the loop
answers no error. -/
theorem createArchiveLoop_grows (env : Env) (files : List String) (w : World) :
    Grows (fun e => e.isEntryStep = true ∧
        ((createArchiveLoop env files w).1 = none → e.failedStep = false))
      w (createArchiveLoop env files w).2 := by
  induction files generalizing w with
  | nil => exact Grows.refl _ w
  | cons file more ih =>
    have hg := addToArchive_grows env file w
    rcases hadd : addToArchive env file w with ⟨r, w2⟩
    rw [hadd] at hg
    cases r with
    | some err =>
      rw [createArchiveLoop_cons_error env file more w w2 err hadd]
      exact hg.mono (fun e he => ⟨he.1, fun h => by simp at h⟩)
    | none =>
      rw [createArchiveLoop_cons_ok env file more w w2 hadd]
      exact Grows.trans (hg.mono (fun e he => ⟨he.1, fun _ => he.2 rfl⟩)) (ih w2)

/-- When the loop answers an error, one of its calls failed. -/
theorem createArchiveLoop_failedStep (env : Env) (files : List String) (w : World) (err : Err)
    (h : (createArchiveLoop env files w).1 = some err) :
    HasFailedStep (createArchiveLoop env files w).2 := by
  induction files generalizing w with
  | nil => simp [createArchiveLoop] at h
  | cons file more ih =>
    rcases hadd : addToArchive env file w with ⟨r, w2⟩
    cases r with
    | some e2 =>
      rw [createArchiveLoop_cons_error env file more w w2 e2 hadd]
      have hf := addToArchive_failedStep env file w e2 (by rw [hadd])
      rw [hadd] at hf
      exact hf
    | none =>
      rw [createArchiveLoop_cons_ok env file more w w2 hadd] at h ⊢
      exact ih w2 h

/-! ## The whole archive -/

/-- The record of `createArchive`: the two writers are created, the files are
added, and the two writers are closed, the tar writer first. -/
theorem createArchive_trace (env : Env) (files : List String) (w : World) :
    ∃ mid r1 r2,
      (createArchive env files w).2.trace =
        w.trace ++ [.gzipNewWriter, .tarNewWriter] ++ mid ++ [.twClose r1, .gwClose r2] ∧
      ∀ e ∈ mid, e.isEntryStep = true ∧
        ((createArchive env files w).1 = none → e.failedStep = false) := by
  obtain ⟨mid, ht, hp⟩ :=
    createArchiveLoop_grows env files ((w.log .gzipNewWriter).log .tarNewWriter)
  refine ⟨mid,
    env.twClose (createArchiveLoop env files ((w.log .gzipNewWriter).log .tarNewWriter)).2,
    env.gwClose ((createArchiveLoop env files ((w.log .gzipNewWriter).log .tarNewWriter)).2.log
      (.twClose (env.twClose
        (createArchiveLoop env files ((w.log .gzipNewWriter).log .tarNewWriter)).2))),
    ?_, hp⟩
  simp only [createArchive, World.log_trace, ht]
  simp

/-- The function `createArchive` answers what its loop answers. -/
theorem createArchive_fst (env : Env) (files : List String) (w : World) :
    (createArchive env files w).1 =
      (createArchiveLoop env files ((w.log .gzipNewWriter).log .tarNewWriter)).1 := rfl

/-- The archive after `createArchive` is the archive after its loop. -/
theorem createArchive_archive (env : Env) (files : List String) (w : World) :
    (createArchive env files w).2.archive =
      (createArchiveLoop env files ((w.log .gzipNewWriter).log .tarNewWriter)).2.archive := rfl

/-- When `createArchive` answers an error, one of its calls failed. -/
theorem createArchive_failedStep (env : Env) (files : List String) (w : World) (err : Err)
    (h : (createArchive env files w).1 = some err) :
    HasFailedStep (createArchive env files w).2 :=
  ((createArchiveLoop_failedStep env files _ err h).kept _).kept _

/-! ## The run -/

/-- With fewer than two arguments `main` prints the usage text and exits. -/
theorem main_of_few_arguments (env : Env) (prog : String) (args : List String)
    (h : args.length < 2) : main env (prog :: args) = ⟨1, World.start.log (.stderr USAGE)⟩ := by
  simp [main, h]

/-- The run when the output file cannot be created. -/
theorem main_of_create_error (env : Env) (prog tgz_path file : String) (files : List String)
    (err : Err) (hc : env.osCreate tgz_path = some err) :
    main env (prog :: tgz_path :: file :: files) =
      ⟨1, (World.start.log (.osCreate tgz_path (some err))).log
        (.logFatalln ("Error writing archive: " ++ err ++ "\n"))⟩ := by
  simp [main, hc]

/-- The run when `createArchive` answers an error. -/
theorem main_of_archive_error (env : Env) (prog tgz_path file : String) (files : List String)
    (err : Err) (hc : env.osCreate tgz_path = none)
    (ha : (createArchive env (file :: files) (outputCreated tgz_path)).1 = some err) :
    main env (prog :: tgz_path :: file :: files) =
      ⟨1, (createArchive env (file :: files) (outputCreated tgz_path)).2.log
        (.logFatalln ("Error creating archive: " ++ err ++ "\n"))⟩ := by
  unfold outputCreated at ha
  simp [main, hc, ha, outputCreated]

/-- The run when `createArchive` answers no error. -/
theorem main_of_archive_ok (env : Env) (prog tgz_path file : String) (files : List String)
    (hc : env.osCreate tgz_path = none)
    (ha : (createArchive env (file :: files) (outputCreated tgz_path)).1 = none) :
    main env (prog :: tgz_path :: file :: files) =
      ⟨0, ((createArchive env (file :: files) (outputCreated tgz_path)).2.log
          (.stdout successLine)).log
        (.outClose (env.outClose
          ((createArchive env (file :: files) (outputCreated tgz_path)).2.log
            (.stdout successLine))))⟩ := by
  unfold outputCreated at ha
  simp [main, hc, ha, outputCreated]

/-- No call of `createArchive` prints the confirmation line. -/
theorem successLine_not_mem_createArchive (env : Env) (files : List String) (w : World)
    (h : Event.stdout successLine ∉ w.trace) :
    Event.stdout successLine ∉ (createArchive env files w).2.trace := by
  obtain ⟨mid, r1, r2, ht, hp⟩ := createArchive_trace env files w
  rw [ht]
  intro hm
  rcases List.mem_append.mp hm with hm | hm
  · rcases List.mem_append.mp hm with hm | hm
    · rcases List.mem_append.mp hm with hm | hm
      · exact h hm
      · simp at hm
    · have := (hp _ hm).1
      simp [Event.isEntryStep] at this
  · simp at hm

/-- When `createArchive` answers no error, its record holds no failed step beyond
those present before the call. -/
theorem createArchive_no_failedStep (env : Env) (files : List String) (w : World)
    (h : (createArchive env files w).1 = none) (e : Event)
    (he : e ∈ (createArchive env files w).2.trace) (hf : e.failedStep = true) :
    e ∈ w.trace := by
  obtain ⟨mid, r1, r2, ht, hp⟩ := createArchive_trace env files w
  rw [ht] at he
  rcases List.mem_append.mp he with he | he
  · rcases List.mem_append.mp he with he | he
    · rcases List.mem_append.mp he with he | he
      · exact he
      · simp only [List.mem_cons, List.mem_singleton, List.not_mem_nil, or_false] at he
        rcases he with rfl | rfl <;> simp [Event.failedStep] at hf
    · have := (hp _ he).2 h
      rw [this] at hf
      exact absurd hf (by simp)
  · simp only [List.mem_cons, List.mem_singleton, List.not_mem_nil, or_false] at he
    rcases he with rfl | rfl <;> simp [Event.failedStep] at hf

/-- A run that prints the confirmation line had at least two arguments, created
the output file, and got no error from `createArchive`. -/
theorem main_successLine_cases (env : Env) (osArgs : List String)
    (h : Event.stdout successLine ∈ (main env osArgs).world.trace) :
    ∃ prog tgz_path file files, osArgs = prog :: tgz_path :: file :: files ∧
      env.osCreate tgz_path = none ∧
      (createArchive env (file :: files) (outputCreated tgz_path)).1 = none := by
  rcases osArgs with _ | ⟨prog, _ | ⟨tgz_path, _ | ⟨file, files⟩⟩⟩
  · simp [main, World.start] at h
  · simp [main, World.start] at h
  · simp [main, World.start] at h
  · refine ⟨prog, tgz_path, file, files, rfl, ?_⟩
    cases hc : env.osCreate tgz_path with
    | some err =>
      rw [main_of_create_error env prog tgz_path file files err hc] at h
      simp [World.start] at h
    | none =>
      refine ⟨rfl, ?_⟩
      cases ha : (createArchive env (file :: files) (outputCreated tgz_path)).1 with
      | none => rfl
      | some err =>
        exfalso
        rw [main_of_archive_error env prog tgz_path file files err hc ha] at h
        simp only [World.log_trace, List.mem_append, List.mem_singleton, reduceCtorEq,
          or_false] at h
        exact successLine_not_mem_createArchive env (file :: files) (outputCreated tgz_path)
          (by simp [outputCreated, World.start]) h

/-! ## The claims -/

/-- C1: for a non-empty list of readable paths (repetitions allowed) and writers
that never fail, `createArchive` returns no error, and the archive it wrote has
exactly one entry per path: the entries, in order, are the paths of the input
list, each paired with the bytes of the file at that path. -/
theorem createArchive_archives_every_file (env : Env) (files : List String) (w : World)
    (hne : files ≠ []) (hr : ∀ p ∈ files, Readable env p) (hw : WritersNeverFail env) :
    (createArchive env files w).1 = none ∧
    (createArchive env files w).2.listing =
      w.listing ++ files.map (fun p => (p, fileBytes env p)) ∧
    (createArchive env files w).2.archive.length = w.archive.length + files.length := by
  have _ := hne
  obtain ⟨w1, hloop, hl, _⟩ :=
    createArchiveLoop_of_readable env files ((w.log .gzipNewWriter).log .tarNewWriter) hr hw
  have hlist : (createArchive env files w).2.listing =
      w.listing ++ files.map (fun p => (p, fileBytes env p)) := by
    simp only [createArchive, hloop, World.listing_log]
    simpa using hl
  refine ⟨by simp [createArchive, hloop], hlist, ?_⟩
  have hlen := congrArg List.length hlist
  simpa [World.listing] using hlen

/-- C1 at a list that names `a.txt` twice. -/
theorem createArchive_archives_every_file_witness :
    (createArchive sampleEnv ["a.txt", "dir/b.txt", "a.txt"] World.start).1 = none ∧
    (createArchive sampleEnv ["a.txt", "dir/b.txt", "a.txt"] World.start).2.listing =
      [("a.txt", [104, 105]), ("dir/b.txt", [1, 2, 3]), ("a.txt", [104, 105])] ∧
    (createArchive sampleEnv ["a.txt", "dir/b.txt", "a.txt"] World.start).2.archive.length = 3 :=
  createArchive_archives_every_file sampleEnv ["a.txt", "dir/b.txt", "a.txt"] World.start
    (by decide)
    (by
      intro p hp
      simp only [List.mem_cons, List.mem_singleton, List.not_mem_nil, or_false] at hp
      rcases hp with rfl | rfl | rfl
      · exact ⟨regularFile "a.txt" [104, 105], _, _, rfl, rfl, rfl, rfl⟩
      · exact ⟨regularFile "b.txt" [1, 2, 3], _, _, rfl, rfl, rfl, rfl⟩
      · exact ⟨regularFile "a.txt" [104, 105], _, _, rfl, rfl, rfl, rfl⟩)
    ⟨fun _ _ => rfl, fun _ _ => rfl⟩

/-- C2: for every path `p` and every metadata record of the file opened at `p`,
the one header `addToArchive` hands to the tar writer has the name `p`, the string
as given, and in every other field (type, link name, size, mode, modification
time) the value the header construction derived from the metadata; the archive
receives no entry with another header, and on success it receives the entry with
this header and the bytes of the file. -/
theorem addToArchive_header (env : Env) (p : String) (w : World)
    (file : File) (info : FileInfo) (derived : Header)
    (ho : env.osOpen p = .ok file) (hs : file.stat = .ok info)
    (hh : env.fileInfoHeader info info.name = .ok derived) :
    ∃ written : Header,
      headersWritten (addToArchive env p w).2.trace = headersWritten w.trace ++ [written] ∧
      written.name = p ∧
      written.typeflag = derived.typeflag ∧ written.linkname = derived.linkname ∧
      written.size = derived.size ∧ written.mode = derived.mode ∧
      written.modTime = derived.modTime ∧
      ((addToArchive env p w).2.archive = w.archive ∨
        ∃ bs, (addToArchive env p w).2.archive = w.archive ++ [⟨written, bs⟩]) ∧
      ((addToArchive env p w).1 = none →
        (addToArchive env p w).2.archive = w.archive ++ [⟨written, file.content⟩]) := by
  refine ⟨{ derived with name := p }, ?_, rfl, rfl, rfl, rfl, rfl, rfl, ?_⟩
  · unfold addToArchive
    simp only [ho]
    unfold addToArchiveOpened
    simp only [hs, hh]
    split
    · simp [headersWritten_append, headersWritten]
    · unfold ioCopy
      split <;> simp [headersWritten_append, headersWritten]
  · unfold addToArchive
    simp only [ho]
    unfold addToArchiveOpened
    simp only [hs, hh]
    split
    · simp
    · unfold ioCopy
      split
      · simp [World.writeContent_beginEntry]
      · simp [World.writeContent_beginEntry]

/-- C2 at the path `/srv/../etc/motd`, whose base name is `motd`. -/
theorem addToArchive_header_witness :
    ∃ written : Header,
      headersWritten (addToArchive sampleEnv "/srv/../etc/motd" World.start).2.trace =
        headersWritten World.start.trace ++ [written] ∧
      written.name = "/srv/../etc/motd" ∧
      written.typeflag = 48 ∧ written.linkname = "" ∧
      written.size = 1 ∧ written.mode = 420 ∧
      written.modTime = 1700000000 ∧
      ((addToArchive sampleEnv "/srv/../etc/motd" World.start).2.archive = World.start.archive ∨
        ∃ bs, (addToArchive sampleEnv "/srv/../etc/motd" World.start).2.archive =
          World.start.archive ++ [⟨written, bs⟩]) ∧
      ((addToArchive sampleEnv "/srv/../etc/motd" World.start).1 = none →
        (addToArchive sampleEnv "/srv/../etc/motd" World.start).2.archive =
          World.start.archive ++ [⟨written, [10]⟩]) :=
  addToArchive_header sampleEnv "/srv/../etc/motd" World.start (regularFile "motd" [10])
    ⟨"motd", 1, 420, 1700000000, false⟩ ⟨48, "motd", "", 1, 420, 1700000000⟩ rfl rfl rfl

/-- C3: when the files before some position are added without error and adding the
file at that position answers the error `err`, `createArchive` returns exactly
`err`; the files after that position play no part in the run, and the paths handed
to `os.Open` are exactly those up to and including the failing one. -/
theorem createArchive_first_error (env : Env) (pre : List String) (file : String)
    (post : List String) (w w1 w2 : World) (err : Err)
    (hpre : createArchiveLoop env pre ((w.log .gzipNewWriter).log .tarNewWriter) = (none, w1))
    (hfail : addToArchive env file w1 = (some err, w2)) :
    (createArchive env (pre ++ file :: post) w).1 = some err ∧
    createArchive env (pre ++ file :: post) w = createArchive env (pre ++ [file]) w ∧
    openedPaths (createArchive env (pre ++ file :: post) w).2.trace =
      openedPaths w.trace ++ pre ++ [file] := by
  have hloop : ∀ rest, createArchiveLoop env (pre ++ file :: rest)
      ((w.log .gzipNewWriter).log .tarNewWriter) = (some err, w2) := by
    intro rest
    rw [createArchiveLoop_append env pre (file :: rest) _ w1 hpre]
    exact createArchiveLoop_cons_error env file rest w1 w2 err hfail
  have ho1 := createArchiveLoop_openedPaths_ok env pre _ w1 hpre
  have ho2 := addToArchive_openedPaths env file w1
  rw [hfail] at ho2
  refine ⟨?_, ?_, ?_⟩
  · simp [createArchive, hloop post]
  · simp [createArchive, hloop post, hloop []]
  · simp only [createArchive, hloop post, World.log_trace, openedPaths_append]
    simp only [ho2, ho1, World.log_trace, openedPaths_append]
    simp [openedPaths]

/-- C3 at a list whose second file does not exist. -/
theorem createArchive_first_error_witness :
    (createArchive sampleEnv (["a.txt"] ++ "nope" :: ["dir/b.txt"]) World.start).1 =
      some "open nope: no such file or directory" ∧
    createArchive sampleEnv (["a.txt"] ++ "nope" :: ["dir/b.txt"]) World.start =
      createArchive sampleEnv (["a.txt"] ++ ["nope"]) World.start ∧
    openedPaths (createArchive sampleEnv (["a.txt"] ++ "nope" :: ["dir/b.txt"]) World.start).2.trace =
      openedPaths World.start.trace ++ ["a.txt"] ++ ["nope"] :=
  createArchive_first_error sampleEnv ["a.txt"] "nope" ["dir/b.txt"] World.start
    (createArchiveLoop sampleEnv ["a.txt"]
      ((World.start.log .gzipNewWriter).log .tarNewWriter)).2
    (addToArchive sampleEnv "nope" (createArchiveLoop sampleEnv ["a.txt"]
      ((World.start.log .gzipNewWriter).log .tarNewWriter)).2).2
    "open nope: no such file or directory" rfl rfl

/-- C6: on every run of `createArchive`, whether it answers an error or not, the
record of its calls is: the gzip writer is created, the tar writer is created, the
files are added, the tar writer is closed, the gzip writer is closed.  The calls in
between are entry steps, none of them a `Close` of a writer; so each writer is
closed exactly once, the tar writer first and the gzip writer after it, and no
header or content is written after either `Close`. -/
theorem createArchive_closes_writers (env : Env) (files : List String) (w : World) :
    ∃ mid r1 r2,
      (createArchive env files w).2.trace =
        w.trace ++ [.gzipNewWriter, .tarNewWriter] ++ mid ++ [.twClose r1, .gwClose r2] ∧
      ∀ e ∈ mid, e.isEntryStep = true ∧ (∀ r, e ≠ .twClose r) ∧ (∀ r, e ≠ .gwClose r) := by
  obtain ⟨mid, r1, r2, ht, hp⟩ := createArchive_trace env files w
  refine ⟨mid, r1, r2, ht, fun e he => ⟨(hp e he).1, ?_, ?_⟩⟩
  · intro r hr
    have h := (hp e he).1
    rw [hr] at h
    simp [Event.isEntryStep] at h
  · intro r hr
    have h := (hp e he).1
    rw [hr] at h
    simp [Event.isEntryStep] at h

/-- C8: with fewer than two arguments after the program name the run writes the
usage text to standard error and exits with status 1; the usage text is the only
call it makes, so no file is created, truncated or opened and nothing is written
to an archive. -/
theorem main_too_few_arguments (env : Env) (prog : String) (args : List String)
    (h : args.length < 2) :
    (main env (prog :: args)).exitCode = 1 ∧
    (main env (prog :: args)).world.trace = [.stderr USAGE] ∧
    (main env (prog :: args)).world.archive = [] := by
  rw [main_of_few_arguments env prog args h]
  exact ⟨rfl, rfl, rfl⟩

/-- C8 at one argument after the program name. -/
theorem main_too_few_arguments_witness :
    (main sampleEnv ["build_tgz", "out.tgz"]).exitCode = 1 ∧
    (main sampleEnv ["build_tgz", "out.tgz"]).world.trace = [.stderr USAGE] ∧
    (main sampleEnv ["build_tgz", "out.tgz"]).world.archive = [] :=
  main_too_few_arguments sampleEnv "build_tgz" ["out.tgz"] (by decide)

/-- C9: with at least two arguments, when creating the output file fails the run
logs the output-creation error and exits with status 1; the failed `os.Create`
and the log line are the only calls it makes, so no input file is opened and no
writer is created. -/
theorem main_output_not_created (env : Env) (prog tgz_path file : String) (files : List String)
    (err : Err) (hc : env.osCreate tgz_path = some err) :
    (main env (prog :: tgz_path :: file :: files)).exitCode = 1 ∧
    (main env (prog :: tgz_path :: file :: files)).world.trace =
      [.osCreate tgz_path (some err), .logFatalln ("Error writing archive: " ++ err ++ "\n")] ∧
    openedPaths (main env (prog :: tgz_path :: file :: files)).world.trace = [] ∧
    Event.gzipNewWriter ∉ (main env (prog :: tgz_path :: file :: files)).world.trace ∧
    Event.tarNewWriter ∉ (main env (prog :: tgz_path :: file :: files)).world.trace := by
  rw [main_of_create_error env prog tgz_path file files err hc]
  simp [World.start, openedPaths]

/-- C9 at an output path whose directory does not exist. -/
theorem main_output_not_created_witness :
    (main noOutputEnv ["build_tgz", "missing/out.tgz", "a.txt"]).exitCode = 1 ∧
    (main noOutputEnv ["build_tgz", "missing/out.tgz", "a.txt"]).world.trace =
      [.osCreate "missing/out.tgz" (some "open missing/out.tgz: no such file or directory"),
       .logFatalln
         "Error writing archive: open missing/out.tgz: no such file or directory\n"] ∧
    openedPaths (main noOutputEnv ["build_tgz", "missing/out.tgz", "a.txt"]).world.trace = [] ∧
    Event.gzipNewWriter ∉ (main noOutputEnv ["build_tgz", "missing/out.tgz", "a.txt"]).world.trace ∧
    Event.tarNewWriter ∉ (main noOutputEnv ["build_tgz", "missing/out.tgz", "a.txt"]).world.trace :=
  main_output_not_created noOutputEnv "build_tgz" "missing/out.tgz" "a.txt" []
    "open missing/out.tgz: no such file or directory" rfl

/-- C10: a run prints the confirmation line exactly when it has at least two
arguments, the output file is created and `createArchive` returns no error; such a
run prints the line on standard output once and ends with exit status 0. -/
theorem main_success_iff (env : Env) (osArgs : List String) :
    (Event.stdout successLine ∈ (main env osArgs).world.trace ↔
      ∃ prog tgz_path file files, osArgs = prog :: tgz_path :: file :: files ∧
        env.osCreate tgz_path = none ∧
        (createArchive env (file :: files) (outputCreated tgz_path)).1 = none) ∧
    (Event.stdout successLine ∈ (main env osArgs).world.trace →
      (main env osArgs).exitCode = 0 ∧
      (main env osArgs).world.trace.count (Event.stdout successLine) = 1) := by
  have hrun : ∀ prog tgz_path file files, env.osCreate tgz_path = none →
      (createArchive env (file :: files) (outputCreated tgz_path)).1 = none →
      Event.stdout successLine ∈ (main env (prog :: tgz_path :: file :: files)).world.trace ∧
      (main env (prog :: tgz_path :: file :: files)).exitCode = 0 ∧
      (main env (prog :: tgz_path :: file :: files)).world.trace.count
        (Event.stdout successLine) = 1 := by
    intro prog tgz_path file files hc ha
    rw [main_of_archive_ok env prog tgz_path file files hc ha]
    refine ⟨by simp, rfl, ?_⟩
    have hn := successLine_not_mem_createArchive env (file :: files) (outputCreated tgz_path)
      (by simp [outputCreated, World.start])
    simp only [World.log_trace, List.count_append, List.count_eq_zero_of_not_mem hn]
    simp
  refine ⟨⟨main_successLine_cases env osArgs, ?_⟩, ?_⟩
  · rintro ⟨prog, tgz_path, file, files, rfl, hc, ha⟩
    exact (hrun prog tgz_path file files hc ha).1
  · intro h
    obtain ⟨prog, tgz_path, file, files, rfl, hc, ha⟩ := main_successLine_cases env osArgs h
    exact (hrun prog tgz_path file files hc ha).2

/-- C5 as stated fails for the `Close` steps: in a run with two arguments in which
closing the gzip writer answers an error, the process ends with exit status 0 and
prints the confirmation line. -/
theorem main_close_error_not_fatal :
    (∃ e ∈ (main closeFailEnv ["build_tgz", "out.tgz", "a.txt"]).world.trace,
      e.failedWriterClose = true) ∧
    (main closeFailEnv ["build_tgz", "out.tgz", "a.txt"]).exitCode = 0 ∧
    Event.stdout successLine ∈ (main closeFailEnv ["build_tgz", "out.tgz", "a.txt"]).world.trace :=
  ⟨⟨.gwClose (some "write out.tgz: no space left on device"), by decide, rfl⟩, rfl, by decide⟩

/-- C5, amended: in a run with at least two arguments, when creating the output
file fails, or opening a file, reading its metadata, building or writing its header
or copying its content fails, the process exits with status 1 and never prints the
confirmation line. -/
theorem main_failed_step_fatal (env : Env) (prog tgz_path file : String) (files : List String)
    (hf : ∃ e ∈ (main env (prog :: tgz_path :: file :: files)).world.trace,
      e.failedStep = true) :
    (main env (prog :: tgz_path :: file :: files)).exitCode = 1 ∧
    (main env (prog :: tgz_path :: file :: files)).exitCode ≠ 0 ∧
    Event.stdout successLine ∉ (main env (prog :: tgz_path :: file :: files)).world.trace := by
  have hexit : (main env (prog :: tgz_path :: file :: files)).exitCode = 1 := by
    cases hc : env.osCreate tgz_path with
    | some err => rw [main_of_create_error env prog tgz_path file files err hc]
    | none =>
      cases ha : (createArchive env (file :: files) (outputCreated tgz_path)).1 with
      | some err => rw [main_of_archive_error env prog tgz_path file files err hc ha]
      | none =>
        exfalso
        obtain ⟨e, he, hfe⟩ := hf
        rw [main_of_archive_ok env prog tgz_path file files hc ha] at he
        simp only [World.log_trace, List.mem_append, List.mem_singleton] at he
        rcases he with (he | he) | he
        · have hin := createArchive_no_failedStep env (file :: files) (outputCreated tgz_path)
            ha e he hfe
          simp only [outputCreated, World.start, World.log_trace, List.nil_append,
            List.mem_singleton] at hin
          rw [hin] at hfe
          simp [Event.failedStep] at hfe
        · rw [he] at hfe
          simp [Event.failedStep] at hfe
        · rw [he] at hfe
          simp [Event.failedStep] at hfe
  refine ⟨hexit, by rw [hexit]; decide, ?_⟩
  intro hs
  obtain ⟨_, _, _, _, heq, hc, ha⟩ :=
    main_successLine_cases env (prog :: tgz_path :: file :: files) hs
  simp only [List.cons.injEq] at heq
  obtain ⟨_, rfl, rfl, rfl⟩ := heq
  rw [main_of_archive_ok env prog _ _ _ hc ha] at hexit
  simp at hexit

/-- C5, amended, at a run whose second input file does not exist. -/
theorem main_failed_step_fatal_witness :
    (main sampleEnv ["build_tgz", "out.tgz", "a.txt", "missing.bin"]).exitCode = 1 ∧
    (main sampleEnv ["build_tgz", "out.tgz", "a.txt", "missing.bin"]).exitCode ≠ 0 ∧
    Event.stdout successLine ∉
      (main sampleEnv ["build_tgz", "out.tgz", "a.txt", "missing.bin"]).world.trace :=
  main_failed_step_fatal sampleEnv "build_tgz" "out.tgz" "a.txt" ["missing.bin"]
    ⟨.osOpen "missing.bin" (some "open missing.bin: no such file or directory"), by decide, rfl⟩

/-- A run that exits with a failure status after two or more arguments has a
failed step in its record. -/
theorem main_fatal_has_failedStep (env : Env) (prog tgz_path file : String)
    (files : List String)
    (h : (main env (prog :: tgz_path :: file :: files)).exitCode ≠ 0) :
    HasFailedStep (main env (prog :: tgz_path :: file :: files)).world := by
  cases hc : env.osCreate tgz_path with
  | some err =>
    rw [main_of_create_error env prog tgz_path file files err hc]
    exact (HasFailedStep.of_log World.start (.osCreate tgz_path (some err)) rfl).kept _
  | none =>
    cases ha : (createArchive env (file :: files) (outputCreated tgz_path)).1 with
    | some err =>
      rw [main_of_archive_error env prog tgz_path file files err hc ha]
      exact (createArchive_failedStep env _ _ err ha).kept _
    | none =>
      rw [main_of_archive_ok env prog tgz_path file files hc ha] at h
      simp at h

/-- C4 as stated fails when a write to the archive fails: `a.txt` is readable and
`nope` does not exist, the run exits with status 1, and the archive holds no entry
for `a.txt`. -/
theorem entry_lost_when_header_write_fails :
    (∀ p ∈ ["a.txt"], Readable headerFailEnv p) ∧
    (∃ err, headerFailEnv.osOpen "nope" = .error err) ∧
    (main headerFailEnv ["build_tgz", "/dev/full", "a.txt", "nope"]).exitCode = 1 ∧
    (main headerFailEnv ["build_tgz", "/dev/full", "a.txt", "nope"]).world.listing = [] ∧
    (main headerFailEnv ["build_tgz", "/dev/full", "a.txt", "nope"]).world.listing ≠
      ["a.txt"].map (fun p => (p, fileBytes headerFailEnv p)) := by
  refine ⟨?_, ⟨_, rfl⟩, rfl, rfl, by decide⟩
  intro p hp
  rw [List.mem_singleton.mp hp]
  exact ⟨regularFile "a.txt" [104, 105], _, _, rfl, rfl, rfl, rfl⟩

/-- C4, amended: when the output file is created, no write of a header or of
content to the archive fails, the first files `pre` are readable and the file after
them does not exist, the run exits with status 1 and the archive holds exactly the
entries of `pre`, each with its path as name and the bytes of its file, in order:
nothing is rolled back, headers were written for the files of `pre` only, and no
file after the missing one was opened. -/
theorem main_missing_file (env : Env) (prog tgz_path : String) (pre : List String)
    (missing : String) (post : List String) (err : Err)
    (hc : env.osCreate tgz_path = none) (hw : WritersNeverFail env)
    (hr : ∀ p ∈ pre, Readable env p) (hm : env.osOpen missing = .error err) :
    (main env (prog :: tgz_path :: (pre ++ missing :: post))).exitCode = 1 ∧
    (main env (prog :: tgz_path :: (pre ++ missing :: post))).world.listing =
      pre.map (fun p => (p, fileBytes env p)) ∧
    (headersWritten (main env (prog :: tgz_path :: (pre ++ missing :: post))).world.trace).map
      Header.name = pre ∧
    openedPaths (main env (prog :: tgz_path :: (pre ++ missing :: post))).world.trace =
      pre ++ [missing] := by
  obtain ⟨w1, hloop, hl, hh⟩ := createArchiveLoop_of_readable env pre
    (((outputCreated tgz_path).log .gzipNewWriter).log .tarNewWriter) hr hw
  have hadd : addToArchive env missing w1 = (some err, w1.log (.osOpen missing (some err))) := by
    simp [addToArchive, hm]
  have hfull : createArchiveLoop env (pre ++ missing :: post)
      (((outputCreated tgz_path).log .gzipNewWriter).log .tarNewWriter) =
      (some err, w1.log (.osOpen missing (some err))) := by
    rw [createArchiveLoop_append env pre (missing :: post) _ w1 hloop]
    exact createArchiveLoop_cons_error env missing post w1 _ err hadd
  have ho := createArchiveLoop_openedPaths_ok env pre _ w1 hloop
  obtain ⟨file, files, hfiles⟩ : ∃ file files, pre ++ missing :: post = file :: files := by
    cases pre with
    | nil => exact ⟨missing, post, rfl⟩
    | cons a more => exact ⟨a, more ++ missing :: post, rfl⟩
  have ha : (createArchive env (file :: files) (outputCreated tgz_path)).1 = some err := by
    rw [← hfiles, createArchive_fst, hfull]
  have hmain := main_of_archive_error env prog tgz_path file files err hc ha
  rw [← hfiles] at hmain
  rw [hmain]
  refine ⟨rfl, ?_, ?_, ?_⟩
  · simp only [World.listing_log]
    simp only [World.listing, createArchive_archive, hfull, World.log_archive]
    simpa [World.listing, outputCreated, World.start] using hl
  · simp only [createArchive, hfull, World.log_trace, headersWritten_append]
    simp only [headersWritten, List.append_nil]
    simpa [outputCreated, World.start, headersWritten_append, headersWritten] using hh
  · simp only [createArchive, hfull, World.log_trace, openedPaths_append, ho]
    simp [outputCreated, World.start, openedPaths_append, openedPaths]

/-- C4, amended, at a run whose second file does not exist. -/
theorem main_missing_file_witness :
    (main sampleEnv ("build_tgz" :: "out.tgz" :: (["a.txt"] ++ "nope" :: ["dir/b.txt"]))).exitCode
      = 1 ∧
    (main sampleEnv
      ("build_tgz" :: "out.tgz" :: (["a.txt"] ++ "nope" :: ["dir/b.txt"]))).world.listing =
      [("a.txt", [104, 105])] ∧
    (headersWritten (main sampleEnv
      ("build_tgz" :: "out.tgz" :: (["a.txt"] ++ "nope" :: ["dir/b.txt"]))).world.trace).map
      Header.name = ["a.txt"] ∧
    openedPaths (main sampleEnv
      ("build_tgz" :: "out.tgz" :: (["a.txt"] ++ "nope" :: ["dir/b.txt"]))).world.trace =
      ["a.txt"] ++ ["nope"] :=
  main_missing_file sampleEnv "build_tgz" "out.tgz" ["a.txt"] "nope" ["dir/b.txt"]
    "open nope: no such file or directory" rfl ⟨fun _ _ => rfl, fun _ _ => rfl⟩
    (by
      intro p hp
      rw [List.mem_singleton.mp hp]
      exact ⟨regularFile "a.txt" [104, 105], _, _, rfl, rfl, rfl, rfl⟩)
    rfl

/-- C7 at a run whose only input file does not exist: the output file is created,
both writers are closed, the error is logged and the process exits with status 1;
the deferred `out.Close` is not among the calls of the run. -/
theorem main_archive_error_leaves_output_open :
    (main sampleEnv ["build_tgz", "out.tgz", "nope"]).exitCode = 1 ∧
    (main sampleEnv ["build_tgz", "out.tgz", "nope"]).world.trace =
      [.osCreate "out.tgz" none, .gzipNewWriter, .tarNewWriter,
       .osOpen "nope" (some "open nope: no such file or directory"),
       .twClose none, .gwClose none,
       .logFatalln "Error creating archive: open nope: no such file or directory\n"] :=
  ⟨rfl, rfl⟩

end BuildTgz
